import Mathlib

/-!
Verification development for the alert-to-order pipeline of the
Trading-bot-app repository (Netlify functions `processAlert` /
`generateWebhook` and the Bybit exchange-client utilities).

The JavaScript source is shallowly embedded: JS field values become the
`JVal` type (with JS truthiness), the Supabase store becomes an explicit
`DB` record, the network and persistence outcomes become explicit inputs,
and each handler becomes a pure Lean function returning the HTTP response
together with a trace of the side effects it issued (exchange calls, trade
inserts, bot updates, logged persistence errors).  The external
HMAC-SHA-256 primitive from `node:crypto` is not re-implemented: the
signing functions are parameterised by the keyed-hash function, and the
repository's contribution — the construction of the signed string — is
modelled exactly.
-/

namespace TradingBot

/-- A JavaScript field value as it appears in alert payloads and bot rows:
`undefined`, `null`, a number (modelled as `Int`; the claims under study do
not depend on fractional values), a string, or a boolean. -/
inductive JVal where
  | vUndef : JVal
  | vNull : JVal
  | vNum : Int → JVal
  | vStr : String → JVal
  | vBool : Bool → JVal
deriving DecidableEq

/-- JavaScript truthiness: `undefined`, `null`, `0`, `""` and `false` are
falsy, everything else (in our value fragment) is truthy. -/
def truthy : JVal → Bool
  | .vUndef => false
  | .vNull => false
  | .vNum n => n ≠ 0
  | .vStr s => s ≠ ""
  | .vBool b => b

/-- The JS `a || b` operator on field values: `a` when truthy, else `b`. -/
def jsOr (a b : JVal) : JVal := if truthy a then a else b

/-- A row of the `bots` table, as read through the webhook join
(`select('*, bots(*)')` in `processAlert.js`). -/
structure Bot where
  id : Nat
  name : String
  symbol : JVal
  default_side : JVal
  default_order_type : JVal
  default_quantity : JVal
  default_stop_loss : JVal
  default_take_profit : JVal
  test_mode : Bool
  trade_count : Option Nat
deriving DecidableEq

/-- A row of the `webhooks` table with its joined bot row. -/
structure WebhookRec where
  webhook_token : String
  user_id : Nat
  bot_id : Nat
  expires_at : Nat
  bots : Bot
deriving DecidableEq

/-- A row of the `api_keys` table (the credential record).  It carries its
own `test_mode` flag, which `processAlert.js` deliberately ignores but the
older variant embedded in `generateWebhook.js` consults. -/
structure ApiKeyRec where
  user_id : Nat
  exchange : String
  api_key : String
  api_secret : String
  test_mode : Bool
deriving DecidableEq

/-- The parsed TradingView alert payload (`await req.json()`); a field the
payload omits is `vUndef`. -/
structure AlertData where
  symbol : JVal
  side : JVal
  orderType : JVal
  quantity : JVal
  price : JVal
  stopLoss : JVal
  takeProfit : JVal
deriving DecidableEq

/-- The backing store visible to the alert processor. -/
structure DB where
  webhooks : List WebhookRec
  api_keys : List ApiKeyRec
deriving DecidableEq

/-- Supabase `.single()`: succeeds exactly when the filtered result set has
exactly one row. -/
def singleRow {α : Type} : List α → Option α
  | [a] => some a
  | _ => none

/-- The webhook lookup of `processAlert.js` lines 65-70:
`.eq('webhook_token', token).gt('expires_at', now).single()`. -/
def lookupWebhook (db : DB) (token : String) (now : Nat) : Option WebhookRec :=
  singleRow (db.webhooks.filter fun w =>
    w.webhook_token == token && decide (now < w.expires_at))

/-- The credential lookup of `processAlert.js` lines 96-101:
`.eq('user_id', uid).eq('exchange', 'bybit').single()`. -/
def lookupApiKey (db : DB) (uid : Nat) : Option ApiKeyRec :=
  singleRow (db.api_keys.filter fun k =>
    k.user_id == uid && k.exchange == "bybit")

/-- The order-parameter object assembled by `processAlert.js`
lines 117-128 (each field `alertData.x || bot.default_x`, price taken from
the payload only, and `testnet := bot.test_mode`). -/
structure OrderParams where
  apiKey : String
  apiSecret : String
  symbol : JVal
  side : JVal
  orderType : JVal
  quantity : JVal
  price : JVal
  stopLoss : JVal
  takeProfit : JVal
  testnet : Bool
deriving DecidableEq

/-- `orderParams` of `processAlert.js` lines 117-128. -/
def assembleOrderParams (alertData : AlertData) (bot : Bot) (key : ApiKeyRec) : OrderParams :=
  { apiKey := key.api_key
    apiSecret := key.api_secret
    symbol := jsOr alertData.symbol bot.symbol
    side := jsOr alertData.side bot.default_side
    orderType := jsOr alertData.orderType bot.default_order_type
    quantity := jsOr alertData.quantity bot.default_quantity
    price := alertData.price
    stopLoss := jsOr alertData.stopLoss bot.default_stop_loss
    takeProfit := jsOr alertData.takeProfit bot.default_take_profit
    testnet := bot.test_mode }

/-- `orderParams` of the older processAlert variant embedded in
`generateWebhook.js` lines 329-340; identical except that
`testnet := apiKey.test_mode || bot.test_mode`. -/
def assembleOrderParamsGW (alertData : AlertData) (bot : Bot) (key : ApiKeyRec) : OrderParams :=
  { apiKey := key.api_key
    apiSecret := key.api_secret
    symbol := jsOr alertData.symbol bot.symbol
    side := jsOr alertData.side bot.default_side
    orderType := jsOr alertData.orderType bot.default_order_type
    quantity := jsOr alertData.quantity bot.default_quantity
    price := alertData.price
    stopLoss := jsOr alertData.stopLoss bot.default_stop_loss
    takeProfit := jsOr alertData.takeProfit bot.default_take_profit
    testnet := key.test_mode || bot.test_mode }

/-- What the exchange's HTTP endpoint does for this invocation: either a
response body (with Bybit's `ret_code`, `ret_msg`, and result fields) or a
transport-level failure.  This is the network input to
`executeBybitOrder` in `netlify/utils/bybit.js`. -/
inductive NetOutcome where
  | response : Int → String → String → String → NetOutcome
  | transportErr : String → NetOutcome
deriving DecidableEq

/-- The order result object `{orderId, symbol, side, orderType, qty,
price, status}` returned by execution (real or simulated). -/
structure OrderResult where
  orderId : String
  symbol : JVal
  side : JVal
  orderType : JVal
  qty : JVal
  price : JVal
  status : String
deriving DecidableEq

/-- `executeBybitOrder` from `netlify/utils/bybit.js` lines 27-84, at the
level the alert processor observes it: on `ret_code === 0` the normalized
result; on a vendor error the thrown message
`Failed to execute order: Bybit API error: <ret_msg>`; on transport
failure the thrown message `Failed to execute order: <cause>`. -/
def executeBybitOrder (net : NetOutcome) (p : OrderParams) : Except String OrderResult :=
  match net with
  | .response retCode retMsg orderId orderStatus =>
      if retCode = 0 then
        .ok { orderId := orderId, symbol := p.symbol, side := p.side
              orderType := p.orderType, qty := p.quantity, price := p.price
              status := orderStatus }
      else
        .error ("Failed to execute order: Bybit API error: " ++ retMsg)
  | .transportErr msg =>
      .error ("Failed to execute order: " ++ msg)

/-- An HTTP response body of the alert processor: an error object
`{error}` or the success object `{success:true, orderId, status,
testMode}`. -/
inductive RespBody where
  | err : String → RespBody
  | success : String → String → Bool → RespBody
deriving DecidableEq

/-- HTTP status and JSON body of a response. -/
structure HttpResponse where
  status : Nat
  body : RespBody
deriving DecidableEq

/-- A row inserted into `trades` (`processAlert.js` lines 161-174). -/
structure TradeRow where
  user_id : Nat
  bot_id : Nat
  symbol : JVal
  side : JVal
  order_type : JVal
  quantity : JVal
  price : JVal
  order_id : String
  status : String
  created_at : Nat
deriving DecidableEq

/-- The bot-counter update issued by `processAlert.js` lines 184-190. -/
structure BotUpdate where
  bot_id : Nat
  last_trade_at : Nat
  trade_count : Nat
deriving DecidableEq

/-- Result of one `processAlert` invocation: the HTTP response plus the
trace of side effects issued (exchange-client calls, trade-row insert
attempts, bot-counter update attempts, and logged persistence errors). -/
structure ProcResult where
  response : HttpResponse
  exchangeCalls : List OrderParams
  tradeInserts : List TradeRow
  botUpdates : List BotUpdate
  logs : List String
deriving DecidableEq

/-- Steps 5-7 of `processAlert.js` (lines 159-210): insert the trade row,
update the bot counters (`bot.trade_count ? bot.trade_count + 1 : 1`),
log — but do not propagate — persistence errors, and answer 200 with
`{success:true, orderId, status, testMode}`. -/
def finishAlert (webhook : WebhookRec) (bot : Bot) (now : Nat)
    (tradeInsertFails botUpdateFails : Bool)
    (calls : List OrderParams) (orderResult : OrderResult) : ProcResult :=
  { response := ⟨200, .success orderResult.orderId orderResult.status bot.test_mode⟩
    exchangeCalls := calls
    tradeInserts := [{ user_id := webhook.user_id, bot_id := webhook.bot_id
                       symbol := orderResult.symbol, side := orderResult.side
                       order_type := orderResult.orderType, quantity := orderResult.qty
                       price := orderResult.price, order_id := orderResult.orderId
                       status := orderResult.status, created_at := now }]
    botUpdates := [{ bot_id := webhook.bot_id, last_trade_at := now
                     trade_count := match bot.trade_count with
                       | some n => if n ≠ 0 then n + 1 else 1
                       | none => 1 }]
    logs := (if tradeInsertFails then ["Error logging trade"] else []) ++
            (if botUpdateFails then ["Error updating bot"] else []) }

/-- The alert processor of `processAlert.js` lines 58-221, for a POST
request whose token, parsed payload, exchange behaviour and persistence
outcomes are given explicitly.  `now` is the clock reading
(`Date.now()` / `new Date()`), also used for the simulated order id. -/
def processAlert (db : DB) (token : String) (now : Nat) (alertData : AlertData)
    (net : NetOutcome) (tradeInsertFails botUpdateFails : Bool) : ProcResult :=
  match lookupWebhook db token now with
  | none =>
      { response := ⟨404, .err "Invalid or expired webhook"⟩
        exchangeCalls := [], tradeInserts := [], botUpdates := [], logs := [] }
  | some webhook =>
      match lookupApiKey db webhook.user_id with
      | none =>
          { response := ⟨400, .err "API credentials not found"⟩
            exchangeCalls := [], tradeInserts := [], botUpdates := [], logs := [] }
      | some apiKey =>
          let bot := webhook.bots
          let orderParams := assembleOrderParams alertData bot apiKey
          if bot.test_mode then
            finishAlert webhook bot now tradeInsertFails botUpdateFails []
              { orderId := "test-" ++ toString now
                symbol := orderParams.symbol, side := orderParams.side
                orderType := orderParams.orderType, qty := orderParams.quantity
                price := jsOr orderParams.price (.vNum 0), status := "TEST_ORDER" }
          else
            match executeBybitOrder net orderParams with
            | .error msg =>
                { response := ⟨500, .err msg⟩
                  exchangeCalls := [orderParams], tradeInserts := [], botUpdates := []
                  logs := [] }
            | .ok orderResult =>
                finishAlert webhook bot now tradeInsertFails botUpdateFails
                  [orderParams] orderResult

/-! ## The legacy (v2) signer and request builders -/

/-- Lexicographic order on character lists, as JS's default
`Array.prototype.sort` compares strings (by code unit). -/
def lexLe : List Char → List Char → Bool
  | [], _ => true
  | _ :: _, [] => false
  | a :: as, b :: bs => if a = b then lexLe as bs else decide (a < b)

/-- Lexicographic comparison of strings by code unit. -/
def strLe (a b : String) : Bool := lexLe a.data b.data

/-- Insert a key into a lexicographically sorted key list. -/
def insertKey (k : String) : List String → List String
  | [] => [k]
  | x :: xs => if strLe k x then k :: x :: xs else x :: insertKey k xs

/-- `Object.keys(params).sort()`: the parameter keys in lexicographic
order.  JS objects have unique keys, so any comparison sort gives the same
result; we use insertion sort. -/
def sortKeys : List String → List String
  | [] => []
  | k :: ks => insertKey k (sortKeys ks)

/-- `params[k]`: the value stored under key `k` ("undefined" when the key
is absent, which never happens on the paths the source takes). -/
def lookupParam (params : List (String × String)) (k : String) : String :=
  match params.find? (fun kv => kv.1 == k) with
  | some kv => kv.2
  | none => "undefined"

/-- `Array.prototype.join('&')`. -/
def joinAmp : List String → String
  | [] => ""
  | [s] => s
  | s :: rest => s ++ "&" ++ joinAmp rest

/-- The string signed by `generateSignature` of `src/unnamed/part_000`
lines 54-66 (which assumes the timestamp is already one of the params):
all `key=value` pairs sorted lexicographically by key, joined with `&`. -/
def sortedQueryString (params : List (String × String)) : String :=
  joinAmp ((sortKeys (params.map Prod.fst)).map
    (fun k => k ++ "=" ++ lookupParam params k))

/-- `generateSignature` of `src/unnamed/part_000`: the keyed hash of the
sorted query string.  The HMAC-SHA-256 primitive from `node:crypto` is
external library code and is passed in as `hmac`. -/
def generateSignatureV2 (hmac : String → String → String)
    (apiSecret : String) (params : List (String × String)) : String :=
  hmac apiSecret (sortedQueryString params)

/-- The string signed by `generateSignature` of `netlify/utils/bybit.js`
lines 10-24: the reduce starts from the accumulator
`timestamp=<Date.now()>&`, appends `key=value&` for each key in sorted
order, and `slice(0, -1)` drops the final `&`.  The timestamp pair is
therefore prepended, not merged into the sorted order. -/
def bybitJsSignedMessage (now : Nat) (params : List (String × String)) : String :=
  ((sortKeys (params.map Prod.fst)).foldl
    (fun a b => a ++ b ++ "=" ++ lookupParam params b ++ "&")
    ("timestamp=" ++ toString now ++ "&")).dropRight 1

/-- `generateSignature` of `netlify/utils/bybit.js`: draws the timestamp
from `Date.now()` (made explicit as `now`) and returns
`{ timestamp, signature }`. -/
def generateSignature (hmac : String → String → String)
    (apiSecret : String) (now : Nat) (params : List (String × String)) :
    String × String :=
  (toString now, hmac apiSecret (bybitJsSignedMessage now params))

/-- A concrete stand-in for the external HMAC-SHA-256 primitive, used only
to instantiate counterexamples and witnesses; theorems about the signers
are parameterised over the hash function. -/
def hmacStandIn (key msg : String) : String := key ++ "#" ++ msg

/-- Stringification a JS value undergoes when interpolated into the
request parameters. -/
def jvalToParamString : JVal → String
  | .vStr s => s
  | .vNum n => toString n
  | .vBool b => if b then "true" else "false"
  | .vNull => "null"
  | .vUndef => "undefined"

/-- The request parameters built by `executeBybitOrder` in
`netlify/utils/bybit.js` lines 42-58 (same shape in `src/unnamed/part_000`
lines 87-103): `time_in_force` is always `'GoodTillCancel'`; `price` is
added only for `orderType === 'Limit'`; `stop_loss` / `take_profit` only
when truthy. -/
def v2OrderParamsList (p : OrderParams) : List (String × String) :=
  [("api_key", p.apiKey),
   ("symbol", jvalToParamString p.symbol),
   ("side", jvalToParamString p.side),
   ("order_type", jvalToParamString p.orderType),
   ("qty", jvalToParamString p.quantity),
   ("time_in_force", "GoodTillCancel")]
  ++ (if p.orderType = .vStr "Limit" then [("price", jvalToParamString p.price)] else [])
  ++ (if truthy p.stopLoss then [("stop_loss", jvalToParamString p.stopLoss)] else [])
  ++ (if truthy p.takeProfit then [("take_profit", jvalToParamString p.takeProfit)] else [])

/-- The `timeInForce` choice of `executeBybitOrder` in
`netlify/utils/bybit.mjs` line 70:
`orderType === 'Market' ? 'IOC' : 'PostOnly'`. -/
def v5TimeInForce (orderType : JVal) : String :=
  if orderType = .vStr "Market" then "IOC" else "PostOnly"

/-- The JSON payload built by `executeBybitOrder` in
`netlify/utils/bybit.mjs` lines 64-74: `qty: String(quantity)`,
`timeInForce` per `v5TimeInForce`, `price` only for a Limit order with
`price != null`, `stopLoss` / `takeProfit` only when `!= null` (JS loose
inequality, matching both `null` and `undefined`). -/
def v5OrderPayload (category : String) (p : OrderParams) : List (String × String) :=
  [("category", category),
   ("symbol", jvalToParamString p.symbol),
   ("side", jvalToParamString p.side),
   ("orderType", jvalToParamString p.orderType),
   ("qty", jvalToParamString p.quantity),
   ("timeInForce", v5TimeInForce p.orderType)]
  ++ (if p.orderType = .vStr "Limit" ∧ p.price ≠ .vNull ∧ p.price ≠ .vUndef then
        [("price", jvalToParamString p.price)] else [])
  ++ (if p.stopLoss ≠ .vNull ∧ p.stopLoss ≠ .vUndef then
        [("stopLoss", jvalToParamString p.stopLoss)] else [])
  ++ (if p.takeProfit ≠ .vNull ∧ p.takeProfit ≠ .vUndef then
        [("takeProfit", jvalToParamString p.takeProfit)] else [])

/-! ## Webhook-token extraction from the request URL -/

/-- `String.prototype.split(sep)` for a one-character separator, on the
character list of the string. -/
def splitSlash : List Char → List (List Char)
  | [] => [[]]
  | c :: cs =>
      if c = '/' then [] :: splitSlash cs
      else
        match splitSlash cs with
        | [] => [[c]]
        | s :: ss => (c :: s) :: ss

/-- `req.url.split('/').pop()` from `processAlert.js` line 60: the last
segment of the URL after splitting on `/`. -/
def webhookTokenOf (url : String) : String :=
  ⟨(splitSlash url.data).getLastD []⟩

/-! ## Concrete fixtures used by counterexamples and witnesses -/

/-- A live-trading bot (`test_mode = false`) with a default quantity. -/
def botFixture : Bot :=
  { id := 1, name := "alpha", symbol := .vStr "BTCUSDT"
    default_side := .vStr "Buy", default_order_type := .vStr "Market"
    default_quantity := .vNum 5, default_stop_loss := .vUndef
    default_take_profit := .vUndef, test_mode := false, trade_count := some 0 }

/-- A credential record whose own test flag is set. -/
def keyFixtureTest : ApiKeyRec :=
  { user_id := 7, exchange := "bybit", api_key := "k", api_secret := "s"
    test_mode := true }

/-- An alert payload that supplies no fields. -/
def alertEmpty : AlertData :=
  { symbol := .vUndef, side := .vUndef, orderType := .vUndef
    quantity := .vUndef, price := .vUndef, stopLoss := .vUndef
    takeProfit := .vUndef }

/-- An alert payload whose quantity is the number `0`: present and
non-null, but falsy in JavaScript. -/
def alertQtyZero : AlertData := { alertEmpty with quantity := .vNum 0 }

/-- Order parameters for a market order, as the exchange clients get
them. -/
def marketOrder : OrderParams :=
  { apiKey := "k", apiSecret := "s", symbol := .vStr "BTCUSDT"
    side := .vStr "Buy", orderType := .vStr "Market", quantity := .vNum 1
    price := .vUndef, stopLoss := .vUndef, takeProfit := .vUndef
    testnet := false }

/-! ## Orchestration fixtures -/

/-- The `botFixture` bot switched to test mode. -/
def botTestFixture : Bot := { botFixture with test_mode := true }

/-- A live webhook row joined to the test-mode bot. -/
def webhookFixture : WebhookRec :=
  { webhook_token := "tokA", user_id := 7, bot_id := 1, expires_at := 1000
    bots := botTestFixture }

/-- A live webhook row joined to the live-trading bot. -/
def webhookLiveFixture : WebhookRec :=
  { webhook_token := "tokB", user_id := 7, bot_id := 1, expires_at := 1000
    bots := botFixture }

/-- An expired webhook row (`expires_at = 10`). -/
def webhookExpiredFixture : WebhookRec :=
  { webhook_token := "tokExp", user_id := 7, bot_id := 1, expires_at := 10
    bots := botFixture }

/-- Store containing the test-mode webhook and the matching credential. -/
def dbFixture : DB :=
  { webhooks := [webhookFixture], api_keys := [keyFixtureTest] }

/-- Store containing the live-trading webhook and the matching
credential. -/
def dbLiveFixture : DB :=
  { webhooks := [webhookLiveFixture], api_keys := [keyFixtureTest] }

/-- Store containing only the expired webhook. -/
def dbExpiredFixture : DB :=
  { webhooks := [webhookExpiredFixture], api_keys := [] }

/-! ## C1: venue selection -/

/-- C1 counterexample: in the processAlert variant embedded in
`generateWebhook.js` (lines 329-340), a credential record with
`test_mode = true` forces `testnet = true` even though the bot has
`test_mode = false`; so it is not the case that, across all bot and
credential records in the cited code, execution targets testnet iff
`bot.test_mode`, nor that the credential-level flag has no influence. -/
theorem credential_flag_forces_testnet_cex :
    botFixture.test_mode = false ∧ keyFixtureTest.test_mode = true ∧
    (assembleOrderParamsGW alertEmpty botFixture keyFixtureTest).testnet = true := by
  decide

/-- C1 (amended): in `processAlert.js` the venue flag passed to order
execution is exactly `bot.test_mode` (the credential flag is ignored),
while in the older variant embedded in `generateWebhook.js` it is
`apiKey.test_mode || bot.test_mode`, so there the credential-level flag
can force testnet. -/
theorem venue_flag_per_variant (a : AlertData) (b : Bot) (k : ApiKeyRec) :
    (assembleOrderParams a b k).testnet = b.test_mode ∧
    (assembleOrderParamsGW a b k).testnet = (k.test_mode || b.test_mode) :=
  ⟨rfl, rfl⟩

/-! ## C5 and C6: the legacy signer -/

/-- C5 counterexample: the legacy signer of `netlify/utils/bybit.js` draws
its timestamp from `Date.now()` inside the call, so two calls with the
identical secret and identical parameter map (here at clock readings 0 and
1) sign different strings and hence produce different signatures — the
signer is not a deterministic function of `(secret, params)`. -/
theorem legacy_signature_clock_dependent_cex :
    bybitJsSignedMessage 0 [("api_key", "k")] ≠
      bybitJsSignedMessage 1 [("api_key", "k")] ∧
    (generateSignature hmacStandIn "secret" 0 [("api_key", "k")]).2 ≠
      (generateSignature hmacStandIn "secret" 1 [("api_key", "k")]).2 := by
  decide

/-- C6: evaluation of the `netlify/utils/bybit.js` signer at the failing
input `params = {api_key: "k"}`, `Date.now() = 100`: the string it signs
is `timestamp=100&api_key=k`, with the timestamp prepended in front of the
sorted pairs rather than merged into sorted position; the fully sorted join
(produced by the `src/unnamed/part_000` revision of the same function,
and required by the exchange) would be `api_key=k&timestamp=100`. -/
theorem v2_signed_string_timestamp_first :
    bybitJsSignedMessage 100 [("api_key", "k")] = "timestamp=100&api_key=k" ∧
    sortedQueryString [("api_key", "k"), ("timestamp", "100")] = "api_key=k&timestamp=100" ∧
    bybitJsSignedMessage 100 [("api_key", "k")] ≠
      sortedQueryString [("api_key", "k"), ("timestamp", "100")] := by
  decide

/-! ## C7: order assembly precedence -/

/-- C7 counterexample: the payload supplies `quantity = 0`, which is
present and non-null, yet the assembled order takes the bot default `5`
instead of the payload value — JS `||` falls back on every falsy value,
not only on absent/null ones. -/
theorem falsy_payload_field_ignored_cex :
    (alertQtyZero.quantity = JVal.vNum 0 ∧
      alertQtyZero.quantity ≠ JVal.vNull ∧ alertQtyZero.quantity ≠ JVal.vUndef) ∧
    (assembleOrderParams alertQtyZero botFixture keyFixtureTest).quantity = JVal.vNum 5 ∧
    (assembleOrderParams alertQtyZero botFixture keyFixtureTest).quantity ≠
      alertQtyZero.quantity := by
  decide

/-- C7 (amended): each of symbol, side, orderType, quantity, stopLoss and
takeProfit is taken from the payload whenever the payload value is truthy
(non-null, non-undefined, non-zero, non-empty, non-false) and from the
bot's default otherwise; `price` is taken only from the payload — it is
never filled from any bot field, so it is independent of the bot record
and remains absent when the payload omits it. -/
theorem assemble_truthy_precedence (a : AlertData) (b b' : Bot) (k : ApiKeyRec) :
    (assembleOrderParams a b k).symbol = (if truthy a.symbol then a.symbol else b.symbol) ∧
    (assembleOrderParams a b k).side = (if truthy a.side then a.side else b.default_side) ∧
    (assembleOrderParams a b k).orderType =
      (if truthy a.orderType then a.orderType else b.default_order_type) ∧
    (assembleOrderParams a b k).quantity =
      (if truthy a.quantity then a.quantity else b.default_quantity) ∧
    (assembleOrderParams a b k).stopLoss =
      (if truthy a.stopLoss then a.stopLoss else b.default_stop_loss) ∧
    (assembleOrderParams a b k).takeProfit =
      (if truthy a.takeProfit then a.takeProfit else b.default_take_profit) ∧
    (assembleOrderParams a b k).price = a.price ∧
    (assembleOrderParams a b k).price = (assembleOrderParams a b' k).price :=
  ⟨rfl, rfl, rfl, rfl, rfl, rfl, rfl, rfl⟩

/-! ## C8: time-in-force policy -/

/-- C8 counterexample: the v2 exchange client (`netlify/utils/bybit.js`,
the one `processAlert.js` imports) transmits
`time_in_force = 'GoodTillCancel'` for a market order — not an
immediate-or-cancel style value (the IOC value the v5 client uses), and
with no caller override parameter. -/
theorem v2_market_tif_cex :
    marketOrder.orderType = JVal.vStr "Market" ∧
    lookupParam (v2OrderParamsList marketOrder) "time_in_force" = "GoodTillCancel" ∧
    ("GoodTillCancel" : String) ≠ "IOC" ∧
    ("GoodTillCancel" : String) ≠ "ImmediateOrCancel" := by
  decide

/-- C8 (amended): only the v5 client (`netlify/utils/bybit.mjs`) applies
the claimed policy, transmitting `IOC` for market orders and `PostOnly`
otherwise (with no caller override parameter); the v2 clients
(`netlify/utils/bybit.js` and `src/unnamed/part_000`) always transmit
`GoodTillCancel` regardless of order type. -/
theorem time_in_force_per_client (cat : String) (p : OrderParams) :
    lookupParam (v5OrderPayload cat p) "timeInForce" =
      (if p.orderType = JVal.vStr "Market" then "IOC" else "PostOnly") ∧
    lookupParam (v2OrderParamsList p) "time_in_force" = "GoodTillCancel" :=
  ⟨rfl, rfl⟩

/-! ## C4: miss indistinguishability -/

/-- C4: any token that is absent from the webhook store resolves exactly
as any token that is present only with `expires_at ≤ now`: the two runs
produce the same complete result — in particular the same 404 status and
the same opaque error body — so a caller cannot distinguish the two miss
causes. -/
theorem miss_causes_indistinguishable (db : DB) (now : Nat) (a : AlertData)
    (net : NetOutcome) (e b : Bool) (t1 t2 : String)
    (h1 : ∀ w ∈ db.webhooks, w.webhook_token ≠ t1)
    (_h2 : ∃ w ∈ db.webhooks, w.webhook_token = t2)
    (h3 : ∀ w ∈ db.webhooks, w.webhook_token = t2 → w.expires_at ≤ now) :
    processAlert db t1 now a net e b = processAlert db t2 now a net e b ∧
    (processAlert db t1 now a net e b).response =
      ⟨404, .err "Invalid or expired webhook"⟩ := by
  have l1 : lookupWebhook db t1 now = none := by
    unfold lookupWebhook
    have hf : db.webhooks.filter
        (fun w => w.webhook_token == t1 && decide (now < w.expires_at)) = [] := by
      rw [List.filter_eq_nil_iff]
      intro w hw
      simp [h1 w hw]
    rw [hf]; rfl
  have l2 : lookupWebhook db t2 now = none := by
    unfold lookupWebhook
    have hf : db.webhooks.filter
        (fun w => w.webhook_token == t2 && decide (now < w.expires_at)) = [] := by
      rw [List.filter_eq_nil_iff]
      intro w hw
      by_cases htk : w.webhook_token = t2
      · have := h3 w hw htk
        simp [htk, Nat.not_lt.mpr this]
      · simp [htk]
    rw [hf]; rfl
  constructor
  · unfold processAlert
    rw [l1, l2]
  · unfold processAlert
    rw [l1]

/-- C4 witness: a store holding only a webhook expired at time 10; at time
50, the unknown token `"ghost"` and the expired token `"tokExp"` yield
identical results. -/
theorem miss_causes_indistinguishable_witness :
    (∀ w ∈ dbExpiredFixture.webhooks, w.webhook_token ≠ "ghost") ∧
    (∃ w ∈ dbExpiredFixture.webhooks, w.webhook_token = "tokExp") ∧
    (∀ w ∈ dbExpiredFixture.webhooks, w.webhook_token = "tokExp" → w.expires_at ≤ 50) ∧
    processAlert dbExpiredFixture "ghost" 50 alertEmpty (.transportErr "down") false false =
      processAlert dbExpiredFixture "tokExp" 50 alertEmpty (.transportErr "down") false false :=
  ⟨by decide, by decide, by decide,
    (miss_causes_indistinguishable dbExpiredFixture 50 alertEmpty (.transportErr "down")
      false false "ghost" "tokExp" (by decide) (by decide) (by decide)).1⟩

/-- Unfolding helper: once both lookups succeed and the bot is in test
mode, the processor's result is the finished simulated order. -/
theorem processAlert_found_sim (db : DB) (token : String) (now : Nat) (a : AlertData)
    (net : NetOutcome) (e b : Bool) (w : WebhookRec) (k : ApiKeyRec)
    (hw : lookupWebhook db token now = some w)
    (ht : w.bots.test_mode = true)
    (hk : lookupApiKey db w.user_id = some k) :
    processAlert db token now a net e b =
      finishAlert w w.bots now e b []
        { orderId := "test-" ++ toString now
          symbol := (assembleOrderParams a w.bots k).symbol
          side := (assembleOrderParams a w.bots k).side
          orderType := (assembleOrderParams a w.bots k).orderType
          qty := (assembleOrderParams a w.bots k).quantity
          price := jsOr (assembleOrderParams a w.bots k).price (.vNum 0)
          status := "TEST_ORDER" } := by
  unfold processAlert
  rw [hw]
  dsimp only
  rw [hk]
  dsimp only
  rw [ht]
  rfl

/-- Unfolding helper: once both lookups succeed and the bot is live, the
processor's result is the outcome of the real execution. -/
theorem processAlert_found_live (db : DB) (token : String) (now : Nat) (a : AlertData)
    (net : NetOutcome) (e b : Bool) (w : WebhookRec) (k : ApiKeyRec)
    (hw : lookupWebhook db token now = some w)
    (ht : w.bots.test_mode = false)
    (hk : lookupApiKey db w.user_id = some k) :
    processAlert db token now a net e b =
      (match executeBybitOrder net (assembleOrderParams a w.bots k) with
      | .error msg =>
          { response := ⟨500, .err msg⟩
            exchangeCalls := [assembleOrderParams a w.bots k]
            tradeInserts := [], botUpdates := [], logs := [] }
      | .ok orderResult =>
          finishAlert w w.bots now e b [assembleOrderParams a w.bots k] orderResult) := by
  unfold processAlert
  rw [hw]
  dsimp only
  rw [hk]
  dsimp only
  rw [ht]
  rfl

/-! ## C2: test mode simulates -/

/-- C2: when the resolved bot has `test_mode = true`, the processor issues
no exchange-client call at all, and still issues exactly one trade-row
insert, whose order id is the locally generated `test-<Date.now()>`
(carrying the distinguishing `test-` marker) and whose status is the
simulation marker `TEST_ORDER`; the request is answered 200. -/
theorem testmode_simulates (db : DB) (token : String) (now : Nat) (a : AlertData)
    (net : NetOutcome) (e b : Bool) (w : WebhookRec) (k : ApiKeyRec)
    (hw : lookupWebhook db token now = some w)
    (ht : w.bots.test_mode = true)
    (hk : lookupApiKey db w.user_id = some k) :
    (processAlert db token now a net e b).exchangeCalls = [] ∧
    (∃ row, (processAlert db token now a net e b).tradeInserts = [row] ∧
      row.order_id = "test-" ++ toString now ∧ row.status = "TEST_ORDER") ∧
    (processAlert db token now a net e b).response.status = 200 := by
  rw [processAlert_found_sim db token now a net e b w k hw ht hk]
  exact ⟨rfl, ⟨_, rfl, rfl, rfl⟩, rfl⟩

/-- C2 witness: the concrete test-mode store at time 5 with an alert that
supplies no fields. -/
theorem testmode_simulates_witness :
    lookupWebhook dbFixture "tokA" 5 = some webhookFixture ∧
    webhookFixture.bots.test_mode = true ∧
    lookupApiKey dbFixture webhookFixture.user_id = some keyFixtureTest ∧
    ((processAlert dbFixture "tokA" 5 alertEmpty (.transportErr "down") false false).exchangeCalls = [] ∧
     (∃ row, (processAlert dbFixture "tokA" 5 alertEmpty (.transportErr "down") false false).tradeInserts = [row] ∧
       row.order_id = "test-" ++ toString 5 ∧ row.status = "TEST_ORDER") ∧
     (processAlert dbFixture "tokA" 5 alertEmpty (.transportErr "down") false false).response.status = 200) :=
  ⟨rfl, rfl, rfl,
    testmode_simulates dbFixture "tokA" 5 alertEmpty (.transportErr "down") false false
      webhookFixture keyFixtureTest rfl rfl rfl⟩

/-! ## C3: vendor error aborts without persistence -/

/-- C3: for a resolved webhook with `test_mode = false` and credentials
present, an exchange response whose vendor return code differs from the
success code 0 makes the processor answer 500 and issue no trade-row
insert and no bot update — persistence is untouched on execution
failure. -/
theorem vendor_error_no_trade (db : DB) (token : String) (now : Nat)
    (a : AlertData) (e b : Bool) (rc : Int) (rm oid ost : String)
    (w : WebhookRec) (k : ApiKeyRec)
    (hw : lookupWebhook db token now = some w)
    (ht : w.bots.test_mode = false)
    (hk : lookupApiKey db w.user_id = some k)
    (hrc : rc ≠ 0) :
    (processAlert db token now a (.response rc rm oid ost) e b).response.status = 500 ∧
    (processAlert db token now a (.response rc rm oid ost) e b).tradeInserts = [] ∧
    (processAlert db token now a (.response rc rm oid ost) e b).botUpdates = [] := by
  rw [processAlert_found_live db token now a (.response rc rm oid ost) e b w k hw ht hk]
  have hex : executeBybitOrder (.response rc rm oid ost) (assembleOrderParams a w.bots k) =
      .error ("Failed to execute order: Bybit API error: " ++ rm) := by
    unfold executeBybitOrder
    dsimp only
    rw [if_neg hrc]
  rw [hex]
  exact ⟨rfl, rfl, rfl⟩

/-- C3 witness: the live-trading store, a valid token, and an exchange
response with vendor code 10001. -/
theorem vendor_error_no_trade_witness :
    lookupWebhook dbLiveFixture "tokB" 5 = some webhookLiveFixture ∧
    webhookLiveFixture.bots.test_mode = false ∧
    lookupApiKey dbLiveFixture webhookLiveFixture.user_id = some keyFixtureTest ∧
    (10001 : Int) ≠ 0 ∧
    ((processAlert dbLiveFixture "tokB" 5 alertEmpty
        (.response 10001 "invalid request" "" "") false false).response.status = 500 ∧
     (processAlert dbLiveFixture "tokB" 5 alertEmpty
        (.response 10001 "invalid request" "" "") false false).tradeInserts = [] ∧
     (processAlert dbLiveFixture "tokB" 5 alertEmpty
        (.response 10001 "invalid request" "" "") false false).botUpdates = []) :=
  ⟨rfl, rfl, rfl, by decide,
    vendor_error_no_trade dbLiveFixture "tokB" 5 alertEmpty false false
      10001 "invalid request" "" "" webhookLiveFixture keyFixtureTest rfl rfl rfl (by decide)⟩

/-! ## C9: persistence outcomes cannot change the response -/

/-- C9: once execution succeeded (simulated, or real with vendor code 0),
the HTTP response is identical for every combination of trade-insert and
bot-update outcomes: still 200, with a `success` body carrying the order
id, the order status, and the bot's test-mode flag. -/
theorem response_indep_of_persistence (db : DB) (token : String) (now : Nat)
    (a : AlertData) (net : NetOutcome) (e1 b1 e2 b2 : Bool)
    (w : WebhookRec) (k : ApiKeyRec)
    (hw : lookupWebhook db token now = some w)
    (hk : lookupApiKey db w.user_id = some k)
    (hsucc : w.bots.test_mode = true ∨
      ∃ rm oid ost, net = NetOutcome.response 0 rm oid ost) :
    (processAlert db token now a net e1 b1).response =
      (processAlert db token now a net e2 b2).response ∧
    (processAlert db token now a net e1 b1).response.status = 200 ∧
    ∃ oid ost, (processAlert db token now a net e1 b1).response.body =
      RespBody.success oid ost w.bots.test_mode := by
  rcases hsucc with ht | ⟨rm, oid, ost, rfl⟩
  · rw [processAlert_found_sim db token now a net e1 b1 w k hw ht hk,
        processAlert_found_sim db token now a net e2 b2 w k hw ht hk]
    exact ⟨rfl, rfl, ⟨_, _, rfl⟩⟩
  · rcases Bool.eq_false_or_eq_true w.bots.test_mode with hb | hb
    case inr =>
        rw [processAlert_found_live db token now a _ e1 b1 w k hw hb hk,
            processAlert_found_live db token now a _ e2 b2 w k hw hb hk]
        have hex : executeBybitOrder (.response 0 rm oid ost) (assembleOrderParams a w.bots k) =
            .ok { orderId := oid, symbol := (assembleOrderParams a w.bots k).symbol
                  side := (assembleOrderParams a w.bots k).side
                  orderType := (assembleOrderParams a w.bots k).orderType
                  qty := (assembleOrderParams a w.bots k).quantity
                  price := (assembleOrderParams a w.bots k).price
                  status := ost } := rfl
        rw [hex]
        exact ⟨rfl, rfl, ⟨_, _, rfl⟩⟩
    case inl =>
        rw [processAlert_found_sim db token now a _ e1 b1 w k hw hb hk,
            processAlert_found_sim db token now a _ e2 b2 w k hw hb hk]
        exact ⟨rfl, rfl, ⟨_, _, rfl⟩⟩

/-- C9 witness: the test-mode store; the response is the same whether
both persistence steps fail or both succeed, and is a 200 success. -/
theorem response_indep_of_persistence_witness :
    lookupWebhook dbFixture "tokA" 5 = some webhookFixture ∧
    lookupApiKey dbFixture webhookFixture.user_id = some keyFixtureTest ∧
    webhookFixture.bots.test_mode = true ∧
    ((processAlert dbFixture "tokA" 5 alertEmpty (.transportErr "down") true true).response =
      (processAlert dbFixture "tokA" 5 alertEmpty (.transportErr "down") false false).response ∧
     (processAlert dbFixture "tokA" 5 alertEmpty (.transportErr "down") true true).response.status = 200 ∧
     ∃ oid ost, (processAlert dbFixture "tokA" 5 alertEmpty (.transportErr "down") true true).response.body =
       RespBody.success oid ost webhookFixture.bots.test_mode) :=
  ⟨rfl, rfl, rfl,
    response_indep_of_persistence dbFixture "tokA" 5 alertEmpty (.transportErr "down")
      true true false false webhookFixture keyFixtureTest rfl rfl (Or.inl rfl)⟩

/-! ## String-append cancellation and query-string machinery -/

theorem str_append_left_cancel {a b c : String} (h : a ++ b = a ++ c) : b = c := by
  have hd := congrArg String.data h
  rw [String.data_append, String.data_append] at hd
  exact String.ext (List.append_cancel_left hd)

theorem str_append_right_cancel {a b c : String} (h : a ++ c = b ++ c) : a = b := by
  have hd := congrArg String.data h
  rw [String.data_append, String.data_append] at hd
  exact String.ext (List.append_cancel_right hd)

theorem hmacStandIn_inj (key : String) :
    ∀ m1 m2, hmacStandIn key m1 = hmacStandIn key m2 → m1 = m2 := by
  intro m1 m2 h
  exact str_append_left_cancel h

theorem insertKey_perm (k : String) (l : List String) : (insertKey k l).Perm (k :: l) := by
  induction l with
  | nil => exact List.Perm.refl _
  | cons x xs ih =>
      unfold insertKey
      by_cases h : strLe k x = true
      · rw [if_pos h]
      · rw [if_neg h]
        exact (ih.cons x).trans (List.Perm.swap k x xs)

theorem sortKeys_perm (l : List String) : (sortKeys l).Perm l := by
  induction l with
  | nil => exact List.Perm.refl _
  | cons x xs ih => exact (insertKey_perm x (sortKeys xs)).trans (ih.cons x)

theorem count_one_split {l : List String} {k : String} (h : l.count k = 1) :
    ∃ A B, l = A ++ k :: B ∧ k ∉ A ∧ k ∉ B := by
  have hmem : k ∈ l := List.count_pos_iff.mp (by omega)
  obtain ⟨A, B, hAB⟩ := List.append_of_mem hmem
  subst hAB
  rw [List.count_append, List.count_cons_self] at h
  refine ⟨A, B, rfl, ?_, ?_⟩
  · exact List.count_eq_zero.mp (by omega)
  · exact List.count_eq_zero.mp (by omega)

theorem lookupParam_cons_of_eq {p : String × String} {rest : List (String × String)}
    {j : String} (h : p.1 = j) : lookupParam (p :: rest) j = p.2 := by
  unfold lookupParam
  rw [List.find?_cons_of_pos rest (by simp [h])]

theorem lookupParam_cons_of_ne {p : String × String} {rest : List (String × String)}
    {j : String} (h : p.1 ≠ j) : lookupParam (p :: rest) j = lookupParam rest j := by
  unfold lookupParam
  rw [List.find?_cons_of_neg rest (by simp [h])]

theorem lookupParam_last {pre post : List (String × String)} {k v : String}
    (hpre : ∀ kv ∈ pre, kv.1 ≠ k) :
    lookupParam (pre ++ (k, v) :: post) k = v := by
  induction pre with
  | nil => rw [List.nil_append, lookupParam_cons_of_eq rfl]
  | cons p ps ih =>
      rw [List.cons_append, lookupParam_cons_of_ne (hpre p (List.mem_cons_self p ps))]
      exact ih fun kv hkv => hpre kv (List.mem_cons_of_mem p hkv)

theorem lookupParam_mid_ne {pre post : List (String × String)} {k v v' j : String}
    (hj : j ≠ k) :
    lookupParam (pre ++ (k, v) :: post) j = lookupParam (pre ++ (k, v') :: post) j := by
  induction pre with
  | nil =>
      rw [List.nil_append, List.nil_append,
          lookupParam_cons_of_ne (fun h => hj h.symm),
          lookupParam_cons_of_ne (fun h => hj h.symm)]
  | cons p ps ih =>
      by_cases hp : p.1 = j
      · rw [List.cons_append, List.cons_append,
            lookupParam_cons_of_eq hp, lookupParam_cons_of_eq hp]
      · rw [List.cons_append, List.cons_append,
            lookupParam_cons_of_ne hp, lookupParam_cons_of_ne hp]
        exact ih

theorem joinAmp_cons_cons (s x : String) (xs : List String) :
    joinAmp (s :: x :: xs) = s ++ "&" ++ joinAmp (x :: xs) := rfl

theorem joinAmp_middle (P S : List String) :
    ∃ I J : String, ∀ m, joinAmp (P ++ m :: S) = I ++ (m ++ J) := by
  induction P with
  | nil =>
      cases S with
      | nil =>
          refine ⟨"", "", fun m => ?_⟩
          rw [List.nil_append, String.append_empty, String.empty_append]
          rfl
      | cons x xs =>
          refine ⟨"", "&" ++ joinAmp (x :: xs), fun m => ?_⟩
          rw [List.nil_append, joinAmp_cons_cons, String.empty_append, String.append_assoc]
  | cons p P' ih =>
      obtain ⟨I, J, hIJ⟩ := ih
      refine ⟨p ++ "&" ++ I, J, fun m => ?_⟩
      obtain ⟨r, rs, hr⟩ : ∃ r rs, P' ++ m :: S = r :: rs := by
        cases P' with
        | nil => exact ⟨m, S, rfl⟩
        | cons a as => exact ⟨a, as ++ m :: S, rfl⟩
      rw [List.cons_append, hr, joinAmp_cons_cons, ← hr, hIJ m, ← String.append_assoc]

theorem sortedQueryString_tamper {pre post : List (String × String)} {k v v' : String}
    (hpre : ∀ kv ∈ pre, kv.1 ≠ k) (hpost : ∀ kv ∈ post, kv.1 ≠ k) (hv : v ≠ v') :
    sortedQueryString (pre ++ (k, v) :: post) ≠ sortedQueryString (pre ++ (k, v') :: post) := by
  have hkeys : (pre ++ (k, v) :: post).map Prod.fst =
      pre.map Prod.fst ++ k :: post.map Prod.fst := by
    rw [List.map_append, List.map_cons]
  have hkeys' : (pre ++ (k, v') :: post).map Prod.fst =
      pre.map Prod.fst ++ k :: post.map Prod.fst := by
    rw [List.map_append, List.map_cons]
  have hkpre : k ∉ pre.map Prod.fst := by
    intro hm
    obtain ⟨kv, hkv, hpf⟩ := List.mem_map.mp hm
    exact hpre kv hkv hpf
  have hkpost : k ∉ post.map Prod.fst := by
    intro hm
    obtain ⟨kv, hkv, hpf⟩ := List.mem_map.mp hm
    exact hpost kv hkv hpf
  have hcount : (pre.map Prod.fst ++ k :: post.map Prod.fst).count k = 1 := by
    rw [List.count_append, List.count_cons_self,
        List.count_eq_zero.mpr hkpre, List.count_eq_zero.mpr hkpost]
  have hsorted : (sortKeys (pre.map Prod.fst ++ k :: post.map Prod.fst)).count k = 1 := by
    rw [(sortKeys_perm _).count_eq]
    exact hcount
  obtain ⟨A, B, hAB, hkA, hkB⟩ := count_one_split hsorted
  intro heq
  unfold sortedQueryString at heq
  rw [hkeys, hkeys', hAB] at heq
  simp only [List.map_append, List.map_cons] at heq
  rw [lookupParam_last hpre, lookupParam_last hpre] at heq
  have hmapA : A.map (fun j => j ++ "=" ++ lookupParam (pre ++ (k, v') :: post) j)
      = A.map (fun j => j ++ "=" ++ lookupParam (pre ++ (k, v) :: post) j) :=
    List.map_congr_left fun j hj => by
      have hjk : j ≠ k := fun h => hkA (h ▸ hj)
      rw [lookupParam_mid_ne hjk]
  have hmapB : B.map (fun j => j ++ "=" ++ lookupParam (pre ++ (k, v') :: post) j)
      = B.map (fun j => j ++ "=" ++ lookupParam (pre ++ (k, v) :: post) j) :=
    List.map_congr_left fun j hj => by
      have hjk : j ≠ k := fun h => hkB (h ▸ hj)
      rw [lookupParam_mid_ne hjk]
  rw [hmapA, hmapB] at heq
  obtain ⟨I, J, hIJ⟩ := joinAmp_middle
    (A.map (fun j => j ++ "=" ++ lookupParam (pre ++ (k, v) :: post) j))
    (B.map (fun j => j ++ "=" ++ lookupParam (pre ++ (k, v) :: post) j))
  rw [hIJ (k ++ "=" ++ v), hIJ (k ++ "=" ++ v')] at heq
  have h1 := str_append_left_cancel heq
  have h2 := str_append_right_cancel h1
  exact hv (str_append_left_cancel h2)

/-! ## C5 (amended): the legacy signer -/

/-- C5 (amended): the legacy signer is deterministic in
`(secret, params, clock reading)` — the `part_000` variant, whose
parameter map already contains the timestamp, is a pure function of
`(secret, params)` alone — and changing the value of any single parameter
(the key occurring once, as JS object keys do) changes the signed sorted
query string, hence the signature, for every keyed-hash function that is
collision-free on the secret. -/
theorem legacy_signature_tamper_evident (hmac : String → String → String) (s : String)
    (pre post : List (String × String)) (k v v' : String)
    (hpre : ∀ kv ∈ pre, kv.1 ≠ k) (hpost : ∀ kv ∈ post, kv.1 ≠ k)
    (hv : v ≠ v')
    (hinj : ∀ m1 m2, hmac s m1 = hmac s m2 → m1 = m2) :
    sortedQueryString (pre ++ (k, v) :: post) ≠
      sortedQueryString (pre ++ (k, v') :: post) ∧
    generateSignatureV2 hmac s (pre ++ (k, v) :: post) ≠
      generateSignatureV2 hmac s (pre ++ (k, v') :: post) := by
  refine ⟨sortedQueryString_tamper hpre hpost hv, fun h => ?_⟩
  exact sortedQueryString_tamper hpre hpost hv (hinj _ _ h)

/-- C5 (amended) witness: changing the value of the `qty` parameter from
`1` to `2` changes the signature computed with the stand-in keyed hash. -/
theorem legacy_signature_tamper_evident_witness :
    (∀ kv ∈ [("api_key", "x")], Prod.fst kv ≠ "qty") ∧
    (∀ kv ∈ ([] : List (String × String)), Prod.fst kv ≠ "qty") ∧
    ("1" : String) ≠ "2" ∧
    (∀ m1 m2, hmacStandIn "secret" m1 = hmacStandIn "secret" m2 → m1 = m2) ∧
    generateSignatureV2 hmacStandIn "secret" ([("api_key", "x")] ++ ("qty", "1") :: []) ≠
      generateSignatureV2 hmacStandIn "secret" ([("api_key", "x")] ++ ("qty", "2") :: []) :=
  ⟨by decide, by decide, by decide, hmacStandIn_inj "secret",
    (legacy_signature_tamper_evident hmacStandIn "secret" [("api_key", "x")] []
      "qty" "1" "2" (by decide) (by decide) (by decide) (hmacStandIn_inj "secret")).2⟩

/-! ## URL-splitting machinery -/

theorem splitSlash_ne_nil (l : List Char) : splitSlash l ≠ [] := by
  cases l with
  | nil => simp [splitSlash]
  | cons c cs =>
      by_cases h : c = '/'
      · simp [splitSlash, h]
      · rcases hs : splitSlash cs with _ | ⟨s, ss⟩ <;> simp [splitSlash, h, hs]

theorem splitSlash_cons_slash (cs : List Char) :
    splitSlash ('/' :: cs) = [] :: splitSlash cs := by
  simp [splitSlash]

theorem splitSlash_cons_ne {c : Char} (cs : List Char) (h : c ≠ '/')
    {s : List Char} {ss : List (List Char)} (hs : splitSlash cs = s :: ss) :
    splitSlash (c :: cs) = (c :: s) :: ss := by
  simp [splitSlash, h, hs]

theorem splitSlash_cons_form (cs : List Char) : ∃ s ss, splitSlash cs = s :: ss := by
  rcases h : splitSlash cs with _ | ⟨s, ss⟩
  · exact absurd h (splitSlash_ne_nil cs)
  · exact ⟨s, ss, rfl⟩

theorem splitSlash_no_slash (ys : List Char) (h : '/' ∉ ys) : splitSlash ys = [ys] := by
  induction ys with
  | nil => rfl
  | cons c cs ih =>
      have hc : c ≠ '/' := by
        intro hcc
        subst hcc
        exact h (List.mem_cons_self _ _)
      have hcs : '/' ∉ cs := fun hm => h (List.mem_cons_of_mem c hm)
      rw [splitSlash_cons_ne cs hc (ih hcs)]

theorem splitSlash_append_slash (xs : List Char) :
    splitSlash (xs ++ ['/']) = splitSlash xs ++ [[]] := by
  induction xs with
  | nil => rfl
  | cons c cs ih =>
      by_cases h : c = '/'
      · subst h
        rw [List.cons_append, splitSlash_cons_slash, splitSlash_cons_slash, ih,
            List.cons_append]
      · obtain ⟨s, ss, hs⟩ := splitSlash_cons_form cs
        have h2 : splitSlash (cs ++ ['/']) = s :: (ss ++ [[]]) := by
          rw [ih, hs, List.cons_append]
        rw [List.cons_append, splitSlash_cons_ne _ h h2, splitSlash_cons_ne _ h hs,
            List.cons_append]

theorem splitSlash_length (l : List Char) : (splitSlash l).length = l.count '/' + 1 := by
  induction l with
  | nil => rfl
  | cons c cs ih =>
      by_cases h : c = '/'
      · subst h
        rw [splitSlash_cons_slash]
        simp only [List.length_cons, List.count_cons_self, ih]
      · obtain ⟨s, ss, hs⟩ := splitSlash_cons_form cs
        rw [splitSlash_cons_ne _ h hs]
        have hih := ih
        rw [hs] at hih
        simp only [List.length_cons] at hih ⊢
        rw [List.count_cons_of_ne (Ne.symm h)]
        omega

theorem getLastD_cons_ne_nil {α : Type} (a : α) (l : List α) (d : α) (h : l ≠ []) :
    (a :: l).getLastD d = l.getLastD d := by
  cases l with
  | nil => exact absurd rfl h
  | cons x xs =>
      rw [List.getLastD_eq_getLast?, List.getLastD_eq_getLast?, List.getLast?_cons_cons]

theorem splitSlash_last_append (xs ys : List Char) (h : '/' ∉ ys) :
    (splitSlash (xs ++ ys)).getLastD [] = (splitSlash xs).getLastD [] ++ ys := by
  induction xs with
  | nil =>
      rw [List.nil_append, splitSlash_no_slash ys h]
      rfl
  | cons c cs ih =>
      by_cases hc : c = '/'
      · subst hc
        rw [List.cons_append, splitSlash_cons_slash, splitSlash_cons_slash,
            getLastD_cons_ne_nil [] (splitSlash (cs ++ ys)) [] (splitSlash_ne_nil (cs ++ ys)),
            getLastD_cons_ne_nil [] (splitSlash cs) [] (splitSlash_ne_nil cs)]
        exact ih
      · obtain ⟨s, ss, hs⟩ := splitSlash_cons_form cs
        obtain ⟨s2, ss2, hs2⟩ := splitSlash_cons_form (cs ++ ys)
        rw [List.cons_append, splitSlash_cons_ne _ hc hs2, splitSlash_cons_ne _ hc hs]
        rw [hs, hs2] at ih
        have hlen : ss2.length = ss.length := by
          have l1 := splitSlash_length (cs ++ ys)
          have l2 := splitSlash_length cs
          rw [hs2] at l1
          rw [hs] at l2
          have hy : ys.count '/' = 0 := List.count_eq_zero.mpr h
          rw [List.count_append, hy] at l1
          simp only [List.length_cons] at l1 l2
          omega
        cases ss2 with
        | nil =>
            have hssnil : ss = [] := by
              cases ss with
              | nil => rfl
              | cons r rs => simp at hlen
            subst hssnil
            show c :: s2 = (c :: s) ++ ys
            have hs2s : s2 = s ++ ys := ih
            rw [hs2s, List.cons_append]
        | cons u us =>
            obtain ⟨r, rs, rfl⟩ : ∃ r rs, ss = r :: rs := by
              cases ss with
              | nil => simp at hlen
              | cons r rs => exact ⟨r, rs, rfl⟩
            rw [getLastD_cons_ne_nil (c :: s2) (u :: us) [] (by simp),
                getLastD_cons_ne_nil (c :: s) (r :: rs) [] (by simp)]
            rw [getLastD_cons_ne_nil s2 (u :: us) [] (by simp),
                getLastD_cons_ne_nil s (r :: rs) [] (by simp)] at ih
            exact ih

theorem webhookTokenOf_trailing_slash (u : String) : webhookTokenOf (u ++ "/") = "" := by
  unfold webhookTokenOf
  show String.mk ((splitSlash (u ++ "/").data).getLastD []) = ""
  rw [String.data_append, splitSlash_append_slash, List.getLastD_concat]

theorem webhookTokenOf_query (u q : String) (hq : '/' ∉ q.data) :
    webhookTokenOf (u ++ "?" ++ q) = webhookTokenOf u ++ "?" ++ q ∧
    '?' ∈ (webhookTokenOf (u ++ "?" ++ q)).data := by
  have hdata : (u ++ "?" ++ q).data = u.data ++ ('?' :: q.data) := by
    rw [String.data_append, String.data_append, List.append_assoc]
    rfl
  have hmem : '/' ∉ '?' :: q.data := by
    intro hm
    rcases List.mem_cons.mp hm with h1 | h1
    · exact absurd h1 (by decide)
    · exact hq h1
  have hlast : (webhookTokenOf (u ++ "?" ++ q)).data =
      (splitSlash u.data).getLastD [] ++ '?' :: q.data := by
    show (splitSlash (u ++ "?" ++ q).data).getLastD [] = _
    rw [hdata, splitSlash_last_append u.data ('?' :: q.data) hmem]
  constructor
  · apply String.ext
    rw [hlast, String.data_append, String.data_append, List.append_assoc]
    rfl
  · rw [hlast]
    exact List.mem_append_right _ (List.mem_cons_self _ _)

theorem processAlert_404 (db : DB) (tok : String) (now : Nat) (a : AlertData)
    (net : NetOutcome) (e b : Bool)
    (hmiss : ∀ w ∈ db.webhooks, w.webhook_token ≠ tok) :
    (processAlert db tok now a net e b).response =
      ⟨404, .err "Invalid or expired webhook"⟩ := by
  have l1 : lookupWebhook db tok now = none := by
    unfold lookupWebhook
    have hf : db.webhooks.filter
        (fun w => w.webhook_token == tok && decide (now < w.expires_at)) = [] := by
      rw [List.filter_eq_nil_iff]
      intro w hw
      simp [hmiss w hw]
    rw [hf]
    rfl
  unfold processAlert
  rw [l1]

/-! ## C10: token extraction from the URL -/

/-- C10: the webhook token is the last `/`-separated segment of the
request URL; a URL with a trailing slash gives the empty token, a URL with
an appended (slash-free) query string gives a token that carries the `?`
and the query text, and — since stored tokens are nonempty and contain no
`?` — both resolve as unknown tokens and yield the 404 outcome. -/
theorem url_token_last_segment (db : DB) (now : Nat) (a : AlertData)
    (net : NetOutcome) (e b : Bool) (u q : String)
    (htok : ∀ w ∈ db.webhooks, w.webhook_token.data ≠ [] ∧ '?' ∉ w.webhook_token.data)
    (hq : '/' ∉ q.data) :
    webhookTokenOf (u ++ "/") = "" ∧
    (processAlert db (webhookTokenOf (u ++ "/")) now a net e b).response =
      ⟨404, .err "Invalid or expired webhook"⟩ ∧
    webhookTokenOf (u ++ "?" ++ q) = webhookTokenOf u ++ "?" ++ q ∧
    (processAlert db (webhookTokenOf (u ++ "?" ++ q)) now a net e b).response =
      ⟨404, .err "Invalid or expired webhook"⟩ := by
  obtain ⟨hqeq, hqmem⟩ := webhookTokenOf_query u q hq
  refine ⟨webhookTokenOf_trailing_slash u, ?_, hqeq, ?_⟩
  · apply processAlert_404
    intro w hw heq
    have hne := (htok w hw).1
    rw [heq, webhookTokenOf_trailing_slash u] at hne
    exact hne rfl
  · apply processAlert_404
    intro w hw heq
    exact (htok w hw).2 (by rw [heq]; exact hqmem)

/-- C10 witness: with the concrete store (token `"tokA"`), the URL
`https://h/f/tokA/` yields the empty token and 404, and appending `?a=b`
yields the token `tokA?a=b` and 404, even though `tokA` itself is
stored. -/
theorem url_token_last_segment_witness :
    (∀ w ∈ dbFixture.webhooks, w.webhook_token.data ≠ [] ∧ '?' ∉ w.webhook_token.data) ∧
    ('/' ∉ ("a=b" : String).data) ∧
    webhookTokenOf ("https://h/f/tokA" ++ "/") = "" ∧
    webhookTokenOf ("https://h/f/tokA" ++ "?" ++ "a=b") =
      webhookTokenOf "https://h/f/tokA" ++ "?" ++ "a=b" ∧
    (processAlert dbFixture (webhookTokenOf ("https://h/f/tokA" ++ "/")) 5 alertEmpty
      (.transportErr "down") false false).response =
      ⟨404, .err "Invalid or expired webhook"⟩ :=
  ⟨by decide, by decide,
    (url_token_last_segment dbFixture 5 alertEmpty (.transportErr "down") false false
      "https://h/f/tokA" "a=b" (by decide) (by decide)).1,
    (url_token_last_segment dbFixture 5 alertEmpty (.transportErr "down") false false
      "https://h/f/tokA" "a=b" (by decide) (by decide)).2.2.1,
    (url_token_last_segment dbFixture 5 alertEmpty (.transportErr "down") false false
      "https://h/f/tokA" "a=b" (by decide) (by decide)).2.1⟩

end TradingBot
